import Mathlib

/-!
Verification of the picofabric serial programmer
(`src/programmer/fabricSerialProgrammer/program.py`).

The Python source is shallowly embedded: byte strings become `List Nat`
(every element a byte `< 256`; theorems carry that hypothesis where the
Python type system guarantees it), the blocking serial channel becomes an
explicit list of the bytes that will arrive (an exhausted list models a
read timeout, exactly the `empty-on-timeout` contract of the channel),
and Python exceptions become explicit error constructors.
-/

/-- FabricTransport.HeaderMagic (source line 1063): the fixed frame magic byte. -/
def HeaderMagic : Nat := 0x1b

/-- FabricTransport.MaxWriteBlockSize (source line 1064): `0xffff-16 = 0xffef`. -/
def MaxWriteBlockSize : Nat := 0xffff - 16

/-- FEncoding.encodeInt16 (source lines 909-911):
`bytes([(value & 0xff) >> 0, (value & 0xff00) >> 8])`.
`value & 0xff` is `value % 256` and `(value & 0xff00) >> 8` is `value / 256 % 256`. -/
def FEncoding.encodeInt16 (value : Nat) : List Nat :=
  [value % 256, value / 256 % 256]

/-- FEncoding.decodeInt16 (source lines 903-905):
`(data[offset+0] << 0) | (data[offset+1] << 8)`; for byte-valued entries the
bitwise or of the two disjoint byte fields is `lo + hi * 256`. -/
def FEncoding.decodeInt16 (data : List Nat) (offset : Nat) : Nat :=
  data.getD offset 0 + data.getD (offset + 1) 0 * 256

/-- FEncoding.getInt32 (source lines 900-902):
`d[o] | d[o+1]<<8 | d[o+2]<<16 | d[o+3]<<24` over byte-valued entries. -/
def FEncoding.getInt32 (data : List Nat) (offset : Nat) : Nat :=
  data.getD offset 0 + data.getD (offset + 1) 0 * 256 +
    data.getD (offset + 2) 0 * 65536 + data.getD (offset + 3) 0 * 16777216

/-- Result of `USBSerialTransport.readBlock` (source lines 1288-1328).
Python returns `None` on a timed-out read (`timeout`), fails the
`assert magic == HeaderMagic` on a bad magic byte (`assertFail`), raises
`IndexError` fetching `data[len(data)-1]` from an empty body (`indexError`),
raises `Exception("Crc fail, got %d, expected %d")` on a checksum mismatch
(`crcFail`), and otherwise returns the payload with the checksum stripped. -/
inductive ReadResult where
  | timeout
  | assertFail
  | indexError
  | crcFail (got expected : Nat)
  | ok (payload : List Nat)
  deriving DecidableEq, Repr

/-- USBSerialTransport.writeBlock (source lines 1268-1285): raises when
`len(data) >= MaxWriteBlockSize`; `bytes([i])` raises for a non-byte value
(both raises are modelled as `none`); otherwise writes magic, the
little-endian u16 `len(data)+1`, the data bytes, and `sum(data) & 0xff`. -/
def writeBlock (data : List Nat) : Option (List Nat) :=
  if MaxWriteBlockSize ≤ data.length then none
  else if data.any (fun b => 256 ≤ b) then none
  else some (HeaderMagic :: FEncoding.encodeInt16 (data.length + 1) ++ data ++ [data.sum % 256])

/-- USBSerialTransport.readBlock (source lines 1288-1328). The incoming
`stream` is the byte sequence the channel will deliver; running out of
stream is a read timeout. The crc is accumulated over every byte except the
last (`if i < sz-1`), masked with `& 0xff`, and compared against the last
byte (`data[len(data)-1] & 0xff`); an empty body makes that fetch raise. -/
def readBlock (stream : List Nat) : ReadResult :=
  match stream with
  | [] => .timeout
  | magic :: rest =>
    if magic = HeaderMagic then
      match rest with
      | b0 :: b1 :: rest2 =>
        let sz := FEncoding.decodeInt16 [b0, b1] 0
        if rest2.length < sz then .timeout
        else
          let data := rest2.take sz
          if data.length = 0 then .indexError
          else
            let crc := (data.take (sz - 1)).sum % 256
            let expected := data.getD (data.length - 1) 0 % 256
            if expected ≠ crc then .crcFail crc expected
            else .ok (data.take (data.length - 1))
      | _ => .timeout
    else .assertFail

/-- Auxiliary: decoding inverts encoding for 16-bit values. -/
theorem decode_encodeInt16 (v : Nat) (h : v < 65536) :
    FEncoding.decodeInt16 (FEncoding.encodeInt16 v) 0 = v := by
  simp only [FEncoding.encodeInt16, FEncoding.decodeInt16, List.getD_cons_zero,
    List.getD_cons_succ]
  omega

/-- Auxiliary: `readBlock` on a stream with a good magic byte and a
two-byte size header, written in unfolded form. -/
theorem readBlock_header (b0 b1 : Nat) (rest2 : List Nat) :
    readBlock (HeaderMagic :: b0 :: b1 :: rest2) =
      (if rest2.length < FEncoding.decodeInt16 [b0, b1] 0 then .timeout
       else
         let data := rest2.take (FEncoding.decodeInt16 [b0, b1] 0)
         if data.length = 0 then .indexError
         else
           let crc := (data.take (FEncoding.decodeInt16 [b0, b1] 0 - 1)).sum % 256
           let expected := data.getD (data.length - 1) 0 % 256
           if expected ≠ crc then .crcFail crc expected
           else .ok (data.take (data.length - 1))) := by
  simp [readBlock]

/-- C1: frame round-trip. For every byte payload with `len(payload) < 0xffef`,
encoding it with the frame writer (magic `0x1b`, little-endian u16 length
`len+1`, payload, checksum `sum(payload) mod 256`) and decoding the resulting
byte sequence with the frame reader returns exactly the original payload. -/
theorem C1_frame_roundtrip (payload : List Nat)
    (hlen : payload.length < 0xffef) (hbytes : ∀ b ∈ payload, b < 256) :
    ∃ frame, writeBlock payload = some frame ∧ readBlock frame = .ok payload := by
  have hnotmax : ¬ MaxWriteBlockSize ≤ payload.length := by
    simp only [MaxWriteBlockSize]; omega
  have hnotbig : payload.any (fun b => 256 ≤ b) = false := by
    simp only [List.any_eq_false, decide_eq_true_eq]
    intro b hb
    exact not_le.mpr (hbytes b hb)
  refine ⟨HeaderMagic :: FEncoding.encodeInt16 (payload.length + 1) ++ payload
      ++ [payload.sum % 256], by simp [writeBlock, hnotmax, hnotbig], ?_⟩
  set c := payload.sum % 256 with hc
  have hfr : HeaderMagic :: FEncoding.encodeInt16 (payload.length + 1) ++ payload ++ [c]
      = HeaderMagic :: (payload.length + 1) % 256 :: (payload.length + 1) / 256 % 256
          :: (payload ++ [c]) := by
    simp [FEncoding.encodeInt16]
  rw [hfr, readBlock_header]
  have hsz : FEncoding.decodeInt16
      [(payload.length + 1) % 256, (payload.length + 1) / 256 % 256] 0
      = payload.length + 1 := by
    have := decode_encodeInt16 (payload.length + 1) (by omega)
    simpa [FEncoding.encodeInt16] using this
  rw [hsz]
  have hlen2 : (payload ++ [c]).length = payload.length + 1 := by simp
  rw [if_neg (by rw [hlen2]; omega)]
  have htake : (payload ++ [c]).take (payload.length + 1) = payload ++ [c] := by
    rw [← hlen2, List.take_length]
  simp only [htake, hlen2, Nat.add_sub_cancel]
  rw [if_neg (by omega)]
  have htake2 : (payload ++ [c]).take payload.length = payload :=
    List.take_left payload [c]
  have hgetD : (payload ++ [c]).getD payload.length 0 = c := by
    simp [List.getD_eq_getElem?_getD, List.getElem?_concat_length]
  rw [htake2, hgetD]
  rw [if_neg (by simp [hc, Nat.mod_mod])]

/-- C1 witness at the spec scenario payload `[0x01, 0x2a]`. -/
theorem C1_frame_roundtrip_witness :
    (([0x01, 0x2a] : List Nat).length < 0xffef ∧ ∀ b ∈ ([0x01, 0x2a] : List Nat), b < 256) ∧
    ∃ frame, writeBlock [0x01, 0x2a] = some frame ∧ readBlock frame = .ok [0x01, 0x2a] :=
  ⟨⟨by decide, by decide⟩, C1_frame_roundtrip [0x01, 0x2a] (by decide) (by decide)⟩

/-- C10: zero-length frames crash the decoder. Any stream that starts with the
valid magic byte followed by the little-endian u16 length `0` (bytes `0, 0`)
makes `readBlock` fail with the out-of-bounds index error raised when
`data[len(data)-1]` is fetched from the empty body, for every continuation of
the stream; it neither returns a payload nor a timeout nor a checksum or
protocol (magic) error. -/
theorem C10_zero_length_frame (rest : List Nat) :
    readBlock (HeaderMagic :: 0 :: 0 :: rest) = .indexError := by
  rw [readBlock_header]
  simp [FEncoding.decodeInt16]

/-- _adduint8 (source lines 890-896): `res = a + b; if res > 0xff:
res = (res % 0xff) - 1; return res`. The result is an integer because the
irregular-looking wrap rule can go negative for general `b`. The asserts
`0 <= a <= 0xff` and `0 <= b <= 0xff` become hypotheses of the theorems. -/
def _adduint8 (a b : Nat) : Int :=
  if 0xff < a + b then ((a : Int) + b) % 0xff - 1 else (a : Int) + b

/-- C8: counter wrap. For every session counter value `c` with
`0 <= c <= 255`, the advance `_adduint8(c, 1)` performed by
`USBSerialTransport.writeCommand` before each send yields `(c + 1) mod 256`;
in particular advancing from 255 yields 0, so the counter cycles uniformly
through all 256 values. -/
theorem C8_counter_wrap (c : Nat) (h : c ≤ 255) :
    _adduint8 c 1 = ((c : Int) + 1) % 256 := by
  unfold _adduint8
  split_ifs with hgt
  · have hc : c = 255 := by omega
    subst hc; decide
  · have : (c : Int) + 1 < 256 := by omega
    omega

/-- C8 witness at the wrap point `c = 255`: the advance yields `0`. -/
theorem C8_counter_wrap_witness :
    (255 ≤ 255 ∧ _adduint8 255 1 = ((255 : Int) + 1) % 256) ∧ _adduint8 255 1 = 0 :=
  ⟨⟨by decide, C8_counter_wrap 255 (by decide)⟩, by decide⟩

/-- USBSerialTransport.readPacket (source lines 1331-1338): reads one block;
exceptions raised by `readBlock` propagate (`Except.error`); a `None`
(timeout) block or a block shorter than two bytes yields the `(None, None,
None)` triple, modelled as `Except.ok none`; otherwise the triple
`(data[0], data[1], data[2:])`. -/
def readPacket (stream : List Nat) : Except ReadResult (Option (Nat × Nat × List Nat)) :=
  match readBlock stream with
  | .ok (d0 :: d1 :: body) => .ok (some (d0, d1, body))
  | .ok _ => .ok none
  | .timeout => .ok none
  | e => .error e

/-- Outcome of `USBSerialTransport.readCommand` (source lines 1359-1372):
`exc` re-raises a `readBlock` exception, `noResponse` is
`raise Exception("No response")`, `parseError` is an `IndexError` from
`fromBytes` on a too-short body, and `ok` carries the echoed command byte,
counter byte and the parsed response. -/
inductive CmdOutcome (α : Type) where
  | exc (e : ReadResult)
  | noResponse
  | parseError
  | ok (cmd counter : Nat) (response : α)
  deriving DecidableEq, Repr

/-- USBSerialTransport.readCommand (source lines 1359-1372): reads a packet
and raises `No response` when `rdata` is falsy - which happens both for the
`(None, None, None)` triple and for an empty `data[2:]` body - else parses
the body with the requested response class. -/
def readCommand {α : Type} (parse : List Nat → Option α) (stream : List Nat) :
    CmdOutcome α :=
  match readPacket stream with
  | .error e => .exc e
  | .ok none => .noResponse
  | .ok (some (_, _, [])) => .noResponse
  | .ok (some (c, cnt, body)) =>
    match parse body with
    | none => .parseError
    | some r => .ok c cnt r

/-- C9: empty-body responses are indistinguishable from timeouts. Whenever the
received frame decodes to an application payload of exactly two bytes
`[opcode, counter]` (an empty body), `readCommand` raises the no-response
error instead of delivering a parsed response, for every response parser. -/
theorem C9_empty_body_no_response {α : Type} (parse : List Nat → Option α)
    (stream : List Nat) (op cnt : Nat) (h : readBlock stream = .ok [op, cnt]) :
    readCommand parse stream = .noResponse := by
  unfold readCommand readPacket
  rw [h]

/-- FGeneric_Response (source lines 1013-1019): `errorCode = getInt32(data, 0)`. -/
structure FGeneric_Response where
  errorCode : Nat
  deriving DecidableEq, Repr

/-- FGeneric_Response.fromBytes: raises `IndexError` when the body is shorter
than the four bytes `getInt32` reads (modelled as `none`). -/
def parseGenericResponse (data : List Nat) : Option FGeneric_Response :=
  if 4 ≤ data.length then some { errorCode := FEncoding.getInt32 data 0 } else none

/-- C9 witness: the encoded frame of the bare two-byte payload `[1, 1]`. -/
theorem C9_empty_body_no_response_witness :
    readBlock [0x1b, 3, 0, 1, 1, 2] = .ok [1, 1] ∧
    readCommand parseGenericResponse [0x1b, 3, 0, 1, 1, 2] = .noResponse :=
  ⟨by decide, C9_empty_body_no_response parseGenericResponse _ 1 1 (by decide)⟩

/-- Auxiliary: the sum of a list after replacing one element, stated
without truncated subtraction. -/
theorem sum_set_add (l : List Nat) (n v : Nat) (h : n < l.length) :
    (l.set n v).sum + l.getD n 0 = l.sum + v := by
  induction l generalizing n with
  | nil => simp at h
  | cons a t ih =>
    cases n with
    | zero => simp [List.set]; omega
    | succ m =>
      have hm : m < t.length := by simpa using h
      have := ih m hm
      simp only [List.set, List.sum_cons, List.getD_cons_succ]
      omega

/-- Auxiliary: flipping one bit changes a natural number. -/
theorem xor_pow_ne (p k : Nat) : p ^^^ 2 ^ k ≠ p := by
  intro h
  have h0 : p ^^^ 2 ^ k = p ^^^ 0 := by simpa using h
  exact (Nat.two_pow_pos k).ne' (Nat.xor_right_inj.mp h0)

/-- A well-formed frame for `payload`, with the bit `2^k` of byte `j` of the
body region (payload bytes followed by the checksum byte) flipped; the magic
byte and the two length bytes are left intact and nothing is re-encoded. -/
def flipBody (payload : List Nat) (j k : Nat) : List Nat :=
  HeaderMagic :: FEncoding.encodeInt16 (payload.length + 1) ++
    ((payload ++ [payload.sum % 256]).set j
      ((payload ++ [payload.sum % 256]).getD j 0 ^^^ 2 ^ k))

/-- C4: checksum sensitivity. For every well-formed encoded frame and every
single-bit flip of a payload byte (`j < len`) or of the checksum byte
(`j = len`), leaving magic and length intact and not re-encoding, the frame
reader fails with the checksum error rather than returning a payload; and
`flipBody` is exactly the encoded frame with the byte at frame position
`j + 3` xor-ed by `2^k`. -/
theorem C4_checksum_sensitivity (payload : List Nat) (j k : Nat)
    (hlen : payload.length < 0xffef) (hbytes : ∀ b ∈ payload, b < 256)
    (hj : j ≤ payload.length) (hk : k < 8) :
    (∀ frame, writeBlock payload = some frame →
      flipBody payload j k = frame.set (j + 3) (frame.getD (j + 3) 0 ^^^ 2 ^ k)) ∧
    ∃ got expected, readBlock (flipBody payload j k) = .crcFail got expected := by
  set L := payload.length with hL
  set c := payload.sum % 256 with hc
  have hclt : c < 256 := Nat.mod_lt _ (by norm_num)
  have hblen : (payload ++ [c]).length = L + 1 := by simp [hL]
  constructor
  · intro frame hframe
    have hnotmax : ¬ MaxWriteBlockSize ≤ L := by simp only [MaxWriteBlockSize]; omega
    have hnotbig : payload.any (fun b => 256 ≤ b) = false := by
      simp only [List.any_eq_false, decide_eq_true_eq]
      intro b hb
      exact not_le.mpr (hbytes b hb)
    have hfr : frame = [HeaderMagic, (L + 1) % 256, (L + 1) / 256 % 256]
        ++ (payload ++ [c]) := by
      have : writeBlock payload
          = some (HeaderMagic :: FEncoding.encodeInt16 (L + 1) ++ payload ++ [c]) := by
        simp [writeBlock, hnotmax, hnotbig, hc, hL]
      rw [this] at hframe
      have hfr0 := Option.some.inj hframe
      rw [← hfr0]
      simp [FEncoding.encodeInt16]
    have h3 : ([HeaderMagic, (L + 1) % 256, (L + 1) / 256 % 256] : List Nat).length = 3 := by
      simp
    rw [hfr, List.set_append_right _ _ (by omega),
        List.getD_append_right _ _ _ _ (by omega), h3]
    have hsub : j + 3 - 3 = j := by omega
    rw [hsub]
    simp [flipBody, FEncoding.encodeInt16, hc, hL]
  · have hfb : flipBody payload j k
        = HeaderMagic :: (L + 1) % 256 :: (L + 1) / 256 % 256 ::
          ((payload ++ [c]).set j ((payload ++ [c]).getD j 0 ^^^ 2 ^ k)) := by
      simp [flipBody, FEncoding.encodeInt16, hc, hL]
    set body2 := (payload ++ [c]).set j ((payload ++ [c]).getD j 0 ^^^ 2 ^ k) with hbody2
    have hlen2 : body2.length = L + 1 := by
      rw [hbody2, List.length_set, hblen]
    rw [hfb, readBlock_header]
    have hsz : FEncoding.decodeInt16 [(L + 1) % 256, (L + 1) / 256 % 256] 0 = L + 1 := by
      have := decode_encodeInt16 (L + 1) (by omega)
      simpa [FEncoding.encodeInt16] using this
    rw [hsz, if_neg (by rw [hlen2]; omega)]
    have htake : body2.take (L + 1) = body2 := by
      rw [← hlen2, List.take_length]
    simp only [htake, hlen2, Nat.add_sub_cancel]
    rw [if_neg (by omega)]
    rcases Nat.lt_or_ge j L with hjl | hje
    · -- a payload byte is flipped
      have hp : (payload ++ [c]).getD j 0 = payload.getD j 0 := by
        rw [List.getD_append _ _ _ _ (by omega)]
      set p := payload.getD j 0 with hpd
      have hpmem : p ∈ payload := by
        rw [hpd, List.getD_eq_getElem payload 0 (by omega)]
        exact List.getElem_mem _
      have hplt : p < 256 := hbytes p hpmem
      have hqlt : p ^^^ 2 ^ k < 256 := by
        have h2k : 2 ^ k < 2 ^ 8 := Nat.pow_lt_pow_right (by omega) hk
        exact Nat.xor_lt_two_pow (n := 8) hplt h2k
      have hbset : body2 = payload.set j (p ^^^ 2 ^ k) ++ [c] := by
        rw [hbody2, hp, List.set_append_left _ _ (by omega)]
      have hslen : (payload.set j (p ^^^ 2 ^ k)).length = L := by
        rw [List.length_set, hL]
      have htakeL : body2.take L = payload.set j (p ^^^ 2 ^ k) := by
        rw [hbset, ← hslen, List.take_left]
      have hgetL : body2.getD L 0 = c := by
        rw [hbset, List.getD_append_right _ _ _ _ (by omega), hslen]
        simp
      rw [htakeL, hgetL]
      have hsum := sum_set_add payload j (p ^^^ 2 ^ k) (by omega)
      rw [← hpd] at hsum
      have hne : p ^^^ 2 ^ k ≠ p := xor_pow_ne p k
      rw [if_pos (by rw [hc] at *; omega)]
      exact ⟨_, _, rfl⟩
    · -- the checksum byte is flipped
      have hje2 : j = L := by omega
      have hp : (payload ++ [c]).getD j 0 = c := by
        rw [hje2, List.getD_append_right _ _ _ _ (by omega)]
        simp [hL]
      have hbset : body2 = payload ++ [c ^^^ 2 ^ k] := by
        rw [hbody2, hp, hje2, List.set_append_right _ _ (by omega)]
        simp [hL]
      have hqlt : c ^^^ 2 ^ k < 256 := by
        have h2k : 2 ^ k < 2 ^ 8 := Nat.pow_lt_pow_right (by omega) hk
        exact Nat.xor_lt_two_pow (n := 8) hclt h2k
      have htakeL : body2.take L = payload := by
        rw [hbset, hL]
        exact List.take_left payload _
      have hgetL : body2.getD L 0 = c ^^^ 2 ^ k := by
        rw [hbset, List.getD_append_right _ _ _ _ (by omega)]
        simp [hL]
      rw [htakeL, hgetL]
      have hne : c ^^^ 2 ^ k ≠ c := xor_pow_ne c k
      rw [if_pos (by rw [hc] at *; omega)]
      exact ⟨_, _, rfl⟩

/-- C4 witness: flip bit 0 of the first payload byte of the frame for
`[0x01, 0x2a]`. -/
theorem C4_checksum_sensitivity_witness :
    (([0x01, 0x2a] : List Nat).length < 0xffef ∧
      (∀ b ∈ ([0x01, 0x2a] : List Nat), b < 256) ∧ 0 ≤ 2 ∧ 0 < 8) ∧
    ∃ got expected, readBlock (flipBody [0x01, 0x2a] 0 0) = .crcFail got expected :=
  ⟨⟨by decide, by decide, by decide, by decide⟩,
    (C4_checksum_sensitivity [0x01, 0x2a] 0 0 (by decide) (by decide)
      (by decide) (by decide)).2⟩

/-- DeviceStatus (source lines 857-860), keeping the source spelling. -/
inductive DeviceStatus where
  | Unkown
  | StatusNoResponse
  | StatusExistsAndValid
  deriving DecidableEq, Repr

/-- FabricDeviceInfo (source lines 863-874). The Python class defines no
equality, so `deviceInfo in devices` compares object identity; `allocId`
records the allocation identity of each freshly constructed instance so that
identity comparison can be modelled faithfully. -/
structure FabricDeviceInfo where
  status : DeviceStatus
  fpgaDeviceId : Nat
  uri : String
  uid : String
  allocId : Nat
  deriving DecidableEq, Repr

/-- FQueryDevicePacket_Response (source lines 1022-1034): `deviceState =
data[0]`, `fpgaDeviceId = getInt32(data, 1)`, `progDeviceId = [data[i+1+4]
for i in range(8)]`. -/
structure FQueryDevicePacket_Response where
  deviceState : Nat
  fpgaDeviceId : Nat
  progDeviceId : List Nat
  deriving DecidableEq, Repr

/-- FQueryDevicePacket_Response.fromBytes: the highest index read is
`7+1+4 = 12`, so a body shorter than 13 bytes raises `IndexError` (`none`). -/
def parseQueryDeviceResponse (data : List Nat) : Option FQueryDevicePacket_Response :=
  if 13 ≤ data.length then
    some { deviceState := data.getD 0 0,
           fpgaDeviceId := FEncoding.getInt32 data 1,
           progDeviceId := (List.range 8).map (fun i => data.getD (i + 1 + 4) 0) }
  else none

/-- The uid built by `FabricTransport.queryDevice` (source lines 1125-1127):
`hex(i)[2:]` concatenated over the 8 reported id bytes (lowercase hex
digits, no zero padding). -/
def uidHex (ids : List Nat) : String :=
  String.join (ids.map (fun i => String.mk (Nat.toDigits 16 i)))

/-- Exceptions that `FabricTransport.queryDevice` can propagate out of
`writeCommand`/`readCommand`. -/
inductive QueryError where
  | frameError (e : ReadResult)
  | noResponse
  | parseError
  deriving DecidableEq, Repr

/-- FabricTransport.queryDevice (source lines 1112-1129), as a function of
the bytes the device will send back (`stream`). It frames and writes an
FQueryDevicePacket, then reads a response via `readCommand`; the exceptions
of the read path propagate (in particular a timed-out read raises
`No response` inside `readCommand`); on a parsed response it builds a fresh
`FabricDeviceInfo` with status `StatusExistsAndValid` iff `deviceState == 1`
and `Unkown` otherwise. The fall-through `return None` of the Python code is
unreachable because `readCommand` either raises or returns a parsed
(truthy) response object. `allocId` is the identity of the fresh info. -/
def FabricTransport.queryDevice (uri : String) (allocId : Nat) (stream : List Nat) :
    Except QueryError (Option FabricDeviceInfo) :=
  match readCommand parseQueryDeviceResponse stream with
  | .exc e => .error (.frameError e)
  | .noResponse => .error .noResponse
  | .parseError => .error .parseError
  | .ok _ _ r =>
    .ok (some { status := if r.deviceState = 1 then DeviceStatus.StatusExistsAndValid
                          else DeviceStatus.Unkown,
                fpgaDeviceId := r.fpgaDeviceId,
                uri := uri,
                uid := uidHex r.progDeviceId,
                allocId := allocId })

/-- C5 counterexample: on a timed-out read (empty incoming stream) the code
raises the `No response` exception; it does not return `None`. This refutes
the claim that `queryDevice` returns `None` when no response arrives. -/
theorem C5_counterexample :
    FabricTransport.queryDevice "usbserial://COM3" 0 [] = .error .noResponse ∧
    ∀ r, FabricTransport.queryDevice "usbserial://COM3" 0 [] ≠ .ok r := by
  constructor
  · rfl
  · intro r h
    cases h

/-- C5 (amended): `queryDevice` sends a QueryDevice command and, when a
response is parsed, maps `deviceState == 1` to `StatusExistsAndValid` and
any other `deviceState` to `Unkown`; when no response arrives within the
active timeout it raises the no-response error (it does not return `None`). -/
theorem C5_queryDevice_status (uri : String) (allocId : Nat) (stream : List Nat) :
    (readBlock stream = .timeout →
      FabricTransport.queryDevice uri allocId stream = .error .noResponse) ∧
    (∀ c cnt r, readCommand parseQueryDeviceResponse stream = .ok c cnt r →
      FabricTransport.queryDevice uri allocId stream =
        .ok (some { status := if r.deviceState = 1 then DeviceStatus.StatusExistsAndValid
                              else DeviceStatus.Unkown,
                    fpgaDeviceId := r.fpgaDeviceId,
                    uri := uri,
                    uid := uidHex r.progDeviceId,
                    allocId := allocId })) := by
  constructor
  · intro ht
    unfold FabricTransport.queryDevice readCommand readPacket
    rw [ht]
  · intro c cnt r h
    unfold FabricTransport.queryDevice
    rw [h]

/-- C5 witness: a concrete timeout raise and a concrete successful mapping
with `deviceState = 1`. -/
theorem C5_queryDevice_status_witness :
    FabricTransport.queryDevice "usbserial://COM3" 7 [] = .error .noResponse ∧
    FabricTransport.queryDevice "usbserial://COM3" 7
        [0x1b, 16, 0, 1, 1, 1, 0, 0, 0, 0, 0, 0, 0, 0, 0, 0, 0, 0, 3] =
      .ok (some { status := DeviceStatus.StatusExistsAndValid, fpgaDeviceId := 0,
                  uri := "usbserial://COM3", uid := "00000000", allocId := 7 }) := by
  constructor
  · exact (C5_queryDevice_status "usbserial://COM3" 7 []).1 rfl
  · have h := (C5_queryDevice_status "usbserial://COM3" 7
        [0x1b, 16, 0, 1, 1, 1, 0, 0, 0, 0, 0, 0, 0, 0, 0, 0, 0, 0, 3]).2 1 1
        { deviceState := 1, fpgaDeviceId := 0, progDeviceId := [0, 0, 0, 0, 0, 0, 0, 0] }
        (by decide)
    simpa using h

/-- A command sent by `FabricTransport.programDevice`, at the
command-descriptor level (fields as set on the packet objects before
serialization; `programBlock` fields follow FQueryProgramBlock.toBytes
order: blockId, compressedBlockSz, blockSz, blockCrc, bitStreamBlock). -/
inductive SentCmd where
  | programDevice (saveToFlash totalSize blockCount bitstreamCrc : Nat)
  | programBlock (blockId compressedBlockSz blockSz blockCrc : Nat)
      (bitStreamBlock : List Nat)
  | programComplete
  deriving DecidableEq, Repr

/-- How a `programDevice` call can raise: `noResponse` when a response read
times out inside `writeCommand` (the `Exception("No response")`), and
`deviceError code` for the `Device failed to program with code` raise on a
nonzero response `errorCode`. -/
inductive ProgramError where
  | noResponse
  | deviceError (code : Nat)
  deriving DecidableEq, Repr

/-- The block-writing while-loop of `FabricTransport.programDevice`
(source lines 1157-1195). `responses i` abstracts the device: it is the
`errorCode` of the Generic response to the i-th command of the session
(`none` when no response arrives in time). `compress` abstracts
`compressData` (zlib with a 2-byte big-endian size header); only its output
bytes and length are observable at this level. The loop takes
`block = rest[0:blockSz]`, stops when it is empty, reassigns
`blockSz = len(block)`, computes `blockCrc = sum(block) & 0xff`, sends the
ProgramBlock command, raises on a nonzero errorCode, and advances. The
returned list is the sequence of ProgramBlock commands sent, in order. -/
def programBlocksLoop (compress : List Nat → List Nat) (responses : Nat → Option Nat)
    (idx blockId blockSz : Nat) (rest : List Nat) :
    List SentCmd × Except ProgramError Unit :=
  let block := rest.take blockSz
  if h : block = [] then ([], .ok ())
  else
    let blockCrc := block.sum % 256
    let compressedBlock := compress block
    let cmd := SentCmd.programBlock blockId compressedBlock.length block.length
        blockCrc compressedBlock
    match responses idx with
    | none => ([cmd], .error .noResponse)
    | some code =>
      if code ≠ 0 then ([cmd], .error (.deviceError code))
      else
        let next := programBlocksLoop compress responses (idx + 1) (blockId + 1)
            block.length (rest.drop block.length)
        (cmd :: next.1, next.2)
termination_by rest.length
decreasing_by
  have hpos : 0 < (rest.take blockSz).length := List.length_pos.mpr h
  have hle : (rest.take blockSz).length ≤ rest.length := by
    simp [List.length_take]
  simp only [List.length_drop]
  omega

/-- FabricTransport.programDevice (source lines 1132-1210): computes
`blockSz = 4096-32` and `blockCnt = ceil(len/blockSz)`, sends
`FProgramDevicePacket{saveToFlash, totalSize, blockCount, bitstreamCrc=0}`,
raises on a nonzero errorCode, runs the block loop, then sends
`FProgramCompletePacket` and raises on a nonzero errorCode. Returns the
full list of commands sent (in order) together with the outcome
(`.ok true` is the Python `return True`). -/
def FabricTransport.programDevice (compress : List Nat → List Nat)
    (responses : Nat → Option Nat) (bitstreamData : List Nat) (saveToFlash : Bool) :
    List SentCmd × Except ProgramError Bool :=
  let blockSz := 4096 - 32
  let blockCnt := (bitstreamData.length + (blockSz - 1)) / blockSz
  let cmd0 := SentCmd.programDevice (if saveToFlash then 1 else 0)
      bitstreamData.length blockCnt 0
  match responses 0 with
  | none => ([cmd0], .error .noResponse)
  | some code =>
    if code ≠ 0 then ([cmd0], .error (.deviceError code))
    else
      let lr := programBlocksLoop compress responses 1 0 blockSz bitstreamData
      match lr.2 with
      | .error e => (cmd0 :: lr.1, .error e)
      | .ok _ =>
        match responses (1 + lr.1.length) with
        | none => (cmd0 :: lr.1 ++ [SentCmd.programComplete], .error .noResponse)
        | some code2 =>
          if code2 ≠ 0 then
            (cmd0 :: lr.1 ++ [SentCmd.programComplete], .error (.deviceError code2))
          else (cmd0 :: lr.1 ++ [SentCmd.programComplete], .ok true)

/-- The ProgramBlock commands the loop emits on an all-zero error path,
written as a standalone recursion for reasoning. -/
def blockCmdsSpec (compress : List Nat → List Nat) (rest : List Nat) (b : Nat) :
    List SentCmd :=
  let block := rest.take (4096 - 32)
  if h : block = [] then []
  else
    SentCmd.programBlock b (compress block).length block.length (block.sum % 256)
        (compress block)
      :: blockCmdsSpec compress (rest.drop block.length) (b + 1)
termination_by rest.length
decreasing_by
  have hpos : 0 < (rest.take (4096 - 32)).length := List.length_pos.mpr h
  have hle : (rest.take (4096 - 32)).length ≤ rest.length := by
    simp [List.length_take]
  simp only [List.length_drop]
  omega

/-- The blockId carried by a ProgramBlock command. -/
def blockIdOf : SentCmd → Option Nat
  | .programBlock id _ _ _ _ => some id
  | _ => none

/-- Auxiliary: the loop is a no-op on an empty remainder. -/
theorem programBlocksLoop_nil (compress : List Nat → List Nat)
    (responses : Nat → Option Nat) (idx b sz : Nat) :
    programBlocksLoop compress responses idx b sz [] = ([], .ok ()) := by
  rw [programBlocksLoop]
  simp

/-- Auxiliary: the command spec is empty on an empty remainder. -/
theorem blockCmdsSpec_nil (compress : List Nat → List Nat) (b : Nat) :
    blockCmdsSpec compress [] b = [] := by
  rw [blockCmdsSpec]
  simp

/-- Auxiliary: on an all-zero error-code path the loop runs to completion and
emits exactly `blockCmdsSpec`. -/
theorem programBlocksLoop_ok (compress : List Nat → List Nat)
    (responses : Nat → Option Nat) (hresp : ∀ i, responses i = some 0) :
    ∀ n rest idx b, rest.length ≤ n →
      programBlocksLoop compress responses idx b (4096 - 32) rest
        = (blockCmdsSpec compress rest b, .ok ()) := by
  intro n
  induction n with
  | zero =>
    intro rest idx b hn
    have hr : rest = [] := List.length_eq_zero.mp (Nat.le_zero.mp hn)
    subst hr
    rw [programBlocksLoop_nil, blockCmdsSpec_nil]
  | succ m ih =>
    intro rest idx b hn
    by_cases hb : rest.take (4096 - 32) = []
    · rw [programBlocksLoop, blockCmdsSpec]
      simp [hb]
    · rw [programBlocksLoop, blockCmdsSpec]
      rw [dif_neg hb, dif_neg hb]
      rw [hresp idx]
      simp only [ne_eq, not_true_eq_false, if_neg, reduceIte]
      have hpos : 0 < (rest.take (4096 - 32)).length := List.length_pos.mpr hb
      rcases Nat.lt_or_ge rest.length (4096 - 32) with hlt | hge
      · have hbl : (rest.take (4096 - 32)).length = rest.length := by
          simp [List.length_take]
          omega
        have hdrop : rest.drop (rest.take (4096 - 32)).length = [] := by
          rw [hbl]
          simp
        rw [hdrop, programBlocksLoop_nil, blockCmdsSpec_nil]
      · have hbl : (rest.take (4096 - 32)).length = 4096 - 32 := by
          simp [List.length_take]
          omega
        have hlen : (rest.drop (rest.take (4096 - 32)).length).length ≤ m := by
          simp only [List.length_drop]
          omega
        rw [hbl] at hlen ⊢
        rw [ih (rest.drop (4096 - 32)) (idx + 1) (b + 1) hlen]

/-- Auxiliary: length of the emitted ProgramBlock command list is the
ceiling `(len + blockSz - 1) / blockSz` with `blockSz = 4096 - 32`. -/
theorem blockCmdsSpec_length (compress : List Nat → List Nat) :
    ∀ n rest b, rest.length ≤ n →
      (blockCmdsSpec compress rest b).length
        = (rest.length + (4096 - 32 - 1)) / (4096 - 32) := by
  intro n
  induction n with
  | zero =>
    intro rest b hn
    have hr : rest = [] := List.length_eq_zero.mp (Nat.le_zero.mp hn)
    subst hr
    rw [blockCmdsSpec_nil]
    norm_num
  | succ m ih =>
    intro rest b hn
    by_cases hb : rest.take (4096 - 32) = []
    · have hr : rest = [] := by
        rcases List.take_eq_nil_iff.mp hb with h | h
        · omega
        · exact h
      subst hr
      rw [blockCmdsSpec_nil]
      norm_num
    · rw [blockCmdsSpec, dif_neg hb]
      simp only [List.length_cons]
      have hpos : 0 < (rest.take (4096 - 32)).length := List.length_pos.mpr hb
      have hbl : (rest.take (4096 - 32)).length = min (4096 - 32) rest.length :=
        List.length_take _ _
      have hrec := ih (rest.drop (rest.take (4096 - 32)).length) (b + 1) (by
        simp only [List.length_drop]
        omega)
      rw [hrec]
      simp only [List.length_drop]
      omega

/-- Auxiliary: the `m`-th emitted ProgramBlock command carries blockId
`b + m` and the raw block size `min` formula. -/
theorem blockCmdsSpec_getD (compress : List Nat → List Nat) :
    ∀ n rest b m, rest.length ≤ n →
      m < (rest.length + (4096 - 32 - 1)) / (4096 - 32) →
      ∃ csz crc blk,
        (blockCmdsSpec compress rest b).getD m SentCmd.programComplete
          = SentCmd.programBlock (b + m) csz
              (if (m + 1) * (4096 - 32) ≤ rest.length then 4096 - 32
               else rest.length % (4096 - 32)) crc blk := by
  intro n
  induction n with
  | zero =>
    intro rest b m hn hm
    have hr : rest = [] := List.length_eq_zero.mp (Nat.le_zero.mp hn)
    subst hr
    norm_num at hm
  | succ q ih =>
    intro rest b m hn hm
    by_cases hb : rest.take (4096 - 32) = []
    · have hr : rest = [] := by
        rcases List.take_eq_nil_iff.mp hb with h | h
        · omega
        · exact h
      subst hr
      norm_num at hm
    · rw [blockCmdsSpec, dif_neg hb]
      have hpos : 0 < (rest.take (4096 - 32)).length := List.length_pos.mpr hb
      have hbl : (rest.take (4096 - 32)).length = min (4096 - 32) rest.length :=
        List.length_take _ _
      cases m with
      | zero =>
        refine ⟨(compress (rest.take (4096 - 32))).length,
          (rest.take (4096 - 32)).sum % 256, compress (rest.take (4096 - 32)), ?_⟩
        simp only [List.getD_cons_zero, Nat.add_zero]
        have hsz : (if (0 + 1) * (4096 - 32) ≤ rest.length then 4096 - 32
            else rest.length % (4096 - 32)) = (rest.take (4096 - 32)).length := by
          rw [hbl]
          split_ifs <;> omega
        rw [hsz]
      | succ m' =>
        have hgt : 4096 - 32 < rest.length := by omega
        have hbl2 : (rest.take (4096 - 32)).length = 4096 - 32 := by omega
        have hrec := ih (rest.drop (rest.take (4096 - 32)).length) (b + 1) m'
          (by simp only [List.length_drop]; omega)
          (by simp only [List.length_drop]; omega)
        obtain ⟨csz, crc, blk, hval⟩ := hrec
        refine ⟨csz, crc, blk, ?_⟩
        simp only [List.getD_cons_succ]
        rw [hval]
        have hb1 : b + 1 + m' = b + (m' + 1) := by omega
        have hsz : (if (m' + 1) * (4096 - 32) ≤ (rest.drop
              (rest.take (4096 - 32)).length).length then 4096 - 32
            else (rest.drop (rest.take (4096 - 32)).length).length % (4096 - 32))
            = (if (m' + 1 + 1) * (4096 - 32) ≤ rest.length then 4096 - 32
               else rest.length % (4096 - 32)) := by
          simp only [List.length_drop, hbl2]
          split_ifs <;> omega
        rw [hb1, hsz]

/-- Auxiliary: shifting a range-map by one. -/
theorem range_map_shift (k b : Nat) :
    List.map (fun x => x + b) (List.range (k + 1))
      = b :: List.map (fun x => x + (b + 1)) (List.range k) := by
  rw [List.range_succ_eq_map]
  simp only [List.map_cons, List.map_map, Nat.zero_add]
  congr 1
  apply List.map_congr_left
  intro x _
  simp only [Function.comp_apply]
  omega

/-- Auxiliary: if the first nonzero error code shows up in the response to
the relative `k`-th block, the loop stops right there: it emits exactly the
blocks `b .. b+k` (each once, in order), never a ProgramComplete, and
raises the device error. -/
theorem programBlocksLoop_err (compress : List Nat → List Nat)
    (responses : Nat → Option Nat) (e : Nat) (he : e ≠ 0) :
    ∀ n k rest idx b, rest.length ≤ n →
      (∀ j, j < k → responses (idx + j) = some 0) →
      responses (idx + k) = some e →
      k < (rest.length + (4096 - 32 - 1)) / (4096 - 32) →
      ∃ cmds, programBlocksLoop compress responses idx b (4096 - 32) rest
          = (cmds, .error (.deviceError e))
        ∧ cmds.length = k + 1
        ∧ cmds.filterMap blockIdOf = (List.range (k + 1)).map (fun x => x + b)
        ∧ SentCmd.programComplete ∉ cmds := by
  intro n
  induction n with
  | zero =>
    intro k rest idx b hn hj hk hkr
    have hr : rest = [] := List.length_eq_zero.mp (Nat.le_zero.mp hn)
    subst hr
    norm_num at hkr
  | succ q ih =>
    intro k rest idx b hn hj hk hkr
    by_cases hb : rest.take (4096 - 32) = []
    · have hr : rest = [] := by
        rcases List.take_eq_nil_iff.mp hb with h | h
        · omega
        · exact h
      subst hr
      norm_num at hkr
    · have hpos : 0 < (rest.take (4096 - 32)).length := List.length_pos.mpr hb
      have hbl : (rest.take (4096 - 32)).length = min (4096 - 32) rest.length :=
        List.length_take _ _
      cases k with
      | zero =>
        rw [programBlocksLoop, dif_neg hb]
        rw [show idx + 0 = idx from rfl] at hk
        refine ⟨[SentCmd.programBlock b (compress (rest.take (4096 - 32))).length
            (rest.take (4096 - 32)).length ((rest.take (4096 - 32)).sum % 256)
            (compress (rest.take (4096 - 32)))], ?_, rfl, ?_, ?_⟩
        · simp only [hk]
          rw [if_pos he]
        · rw [show List.range 1 = [0] from rfl]
          simp [blockIdOf]
        · intro hmem
          simp [List.mem_singleton] at hmem
      | succ k' =>
        rw [programBlocksLoop, dif_neg hb]
        have h0 : responses idx = some 0 := by
          have := hj 0 (by omega)
          simpa using this
        rw [h0]
        simp only [ne_eq, not_true_eq_false, reduceIte]
        have hgt : 4096 - 32 < rest.length := by omega
        have hbl2 : (rest.take (4096 - 32)).length = 4096 - 32 := by omega
        have hrec := ih k' (rest.drop (rest.take (4096 - 32)).length) (idx + 1) (b + 1)
          (by simp only [List.length_drop]; omega)
          (by
            intro j hjlt
            have := hj (j + 1) (by omega)
            rw [show idx + (j + 1) = idx + 1 + j by omega] at this
            exact this)
          (by
            rw [show idx + 1 + k' = idx + (k' + 1) by omega]
            exact hk)
          (by simp only [List.length_drop, hbl2]; omega)
        obtain ⟨cmds, hloop, hlen, hids, hnocomp⟩ := hrec
        rw [hbl2] at hloop ⊢
        refine ⟨SentCmd.programBlock b (compress (rest.take (4096 - 32))).length
            (4096 - 32) ((rest.take (4096 - 32)).sum % 256)
            (compress (rest.take (4096 - 32))) :: cmds, ?_, ?_, ?_, ?_⟩
        · rw [hloop]
        · simp [hlen]
        · simp only [List.filterMap_cons, blockIdOf, hids]
          rw [range_map_shift (k' + 1) b]
        · intro hmem
          rcases List.mem_cons.mp hmem with h | h
          · simp at h
          · exact hnocomp h

/-- Auxiliary: the all-success run of `programDevice` in closed form. -/
theorem programDevice_ok (compress : List Nat → List Nat)
    (responses : Nat → Option Nat) (data : List Nat) (sf : Bool)
    (hresp : ∀ i, responses i = some 0) :
    FabricTransport.programDevice compress responses data sf
      = (SentCmd.programDevice (if sf then 1 else 0) data.length
            ((data.length + (4096 - 32 - 1)) / (4096 - 32)) 0
          :: (blockCmdsSpec compress data 0 ++ [SentCmd.programComplete]),
         .ok true) := by
  have hloop := programBlocksLoop_ok compress responses hresp data.length data 1 0
    (le_refl _)
  unfold FabricTransport.programDevice
  rw [hresp 0]
  simp only [ne_eq, not_true_eq_false, reduceIte]
  rw [hloop]
  simp only []
  rw [hresp (1 + (blockCmdsSpec compress data 0).length)]
  simp

/-- C3: block splitting. For every nonempty bitstream, when every response
carries errorCode 0, `programDevice` announces
`blockCount = ceil(len / (4096-32))` in the ProgramDevice command, then sends
exactly `blockCount` ProgramBlock commands sequentially with blockId starting
at 0 and increasing by 1, each with `rawSize = 4096-32` except the final
block whose `rawSize` is `len mod (4096-32)` when `len` is not an exact
multiple of the block size and `4096-32` when it is, and it finishes with the
ProgramComplete command. -/
theorem C3_block_splitting (compress : List Nat → List Nat)
    (responses : Nat → Option Nat) (data : List Nat) (sf : Bool)
    (hne : data ≠ []) (hresp : ∀ i, responses i = some 0) :
    (FabricTransport.programDevice compress responses data sf).2 = .ok true ∧
    (FabricTransport.programDevice compress responses data sf).1.length
      = (data.length + (4096 - 32 - 1)) / (4096 - 32) + 2 ∧
    (FabricTransport.programDevice compress responses data sf).1.getD 0
        SentCmd.programComplete
      = SentCmd.programDevice (if sf then 1 else 0) data.length
          ((data.length + (4096 - 32 - 1)) / (4096 - 32)) 0 ∧
    (∀ m, m < (data.length + (4096 - 32 - 1)) / (4096 - 32) →
      ∃ csz crc blk,
        (FabricTransport.programDevice compress responses data sf).1.getD (m + 1)
            SentCmd.programComplete
          = SentCmd.programBlock m csz
              (if m + 1 = (data.length + (4096 - 32 - 1)) / (4096 - 32)
                  ∧ data.length % (4096 - 32) ≠ 0
               then data.length % (4096 - 32) else 4096 - 32) crc blk) ∧
    (FabricTransport.programDevice compress responses data sf).1.getD
        ((data.length + (4096 - 32 - 1)) / (4096 - 32) + 1)
        (SentCmd.programDevice 0 0 0 0)
      = SentCmd.programComplete := by
  have hpd := programDevice_ok compress responses data sf hresp
  have hlpos : 0 < data.length := List.length_pos.mpr hne
  have hslen := blockCmdsSpec_length compress data.length data 0 (le_refl _)
  refine ⟨by rw [hpd], ?_, by rw [hpd]; simp, ?_, ?_⟩
  · rw [hpd]
    simp only [List.length_cons, List.length_append, List.length_singleton,
      List.length_nil, hslen]
  · intro m hm
    obtain ⟨csz, crc, blk, hval⟩ :=
      blockCmdsSpec_getD compress data.length data 0 m (le_refl _) hm
    refine ⟨csz, crc, blk, ?_⟩
    rw [hpd]
    simp only [List.getD_cons_succ]
    rw [List.getD_append _ _ _ _ (by rw [hslen]; exact hm), hval]
    have hsz : (if (m + 1) * (4096 - 32) ≤ data.length then 4096 - 32
          else data.length % (4096 - 32))
        = (if m + 1 = (data.length + (4096 - 32 - 1)) / (4096 - 32)
              ∧ data.length % (4096 - 32) ≠ 0
           then data.length % (4096 - 32) else 4096 - 32) := by
      split_ifs <;> omega
    rw [Nat.zero_add, hsz]
  · rw [hpd]
    simp only [List.getD_cons_succ]
    rw [List.getD_append_right _ _ _ _ (by rw [hslen]), hslen]
    simp

/-- C3 witness: a 5000-byte bitstream splits into a full 4064-byte block
and a final 936-byte block, and the run completes with `.ok true`. -/
theorem C3_block_splitting_witness :
    (List.replicate 5000 7 ≠ ([] : List Nat)) ∧
    (FabricTransport.programDevice (fun l => l) (fun _ => some 0)
        (List.replicate 5000 7) false).2 = .ok true ∧
    (FabricTransport.programDevice (fun l => l) (fun _ => some 0)
        (List.replicate 5000 7) false).1.length
      = ((List.replicate 5000 7 : List Nat).length + (4096 - 32 - 1)) / (4096 - 32) + 2 :=
  ⟨by
      intro h
      have h2 := congrArg List.length h
      rw [List.length_replicate, List.length_nil] at h2
      omega,
   (C3_block_splitting (fun l => l) (fun _ => some 0) (List.replicate 5000 7) false
      (by
        intro h
        have h2 := congrArg List.length h
        rw [List.length_replicate, List.length_nil] at h2
        omega) (fun _ => rfl)).1,
   (C3_block_splitting (fun l => l) (fun _ => some 0) (List.replicate 5000 7) false
      (by
        intro h
        have h2 := congrArg List.length h
        rw [List.length_replicate, List.length_nil] at h2
        omega) (fun _ => rfl)).2.1⟩

/-- C2: abort-on-error. If the response to the ProgramBlock command of block
`k` is the first one carrying a nonzero errorCode `e` (all earlier responses
in the session carry 0), then `programDevice` raises the device error: the
commands sent are exactly the ProgramDevice command followed by the
ProgramBlock commands for blocks `0 .. k` - each sent exactly once, in order
(`filterMap blockIdOf` is `range (k+1)`), so no further ProgramBlock command
is sent, the ProgramComplete command is never sent, and no block is retried
or resumed. -/
theorem C2_abort_on_error (compress : List Nat → List Nat)
    (responses : Nat → Option Nat) (data : List Nat) (sf : Bool) (k e : Nat)
    (h0 : responses 0 = some 0)
    (hj : ∀ j, j < k → responses (j + 1) = some 0)
    (hk : responses (k + 1) = some e) (he : e ≠ 0)
    (hkr : k < (data.length + (4096 - 32 - 1)) / (4096 - 32)) :
    (FabricTransport.programDevice compress responses data sf).2
        = .error (.deviceError e) ∧
    (FabricTransport.programDevice compress responses data sf).1.length = k + 2 ∧
    SentCmd.programComplete ∉
      (FabricTransport.programDevice compress responses data sf).1 ∧
    (FabricTransport.programDevice compress responses data sf).1.filterMap blockIdOf
      = List.range (k + 1) := by
  obtain ⟨cmds, hloop, hlen, hids, hnocomp⟩ :=
    programBlocksLoop_err compress responses e he data.length k data 1 0 (le_refl _)
      (by intro j hjk; rw [show 1 + j = j + 1 by omega]; exact hj j hjk)
      (by rw [show 1 + k = k + 1 by omega]; exact hk)
      hkr
  have hpd : FabricTransport.programDevice compress responses data sf
      = (SentCmd.programDevice (if sf then 1 else 0) data.length
            ((data.length + (4096 - 32 - 1)) / (4096 - 32)) 0 :: cmds,
         .error (.deviceError e)) := by
    unfold FabricTransport.programDevice
    rw [h0]
    simp only [ne_eq, not_true_eq_false, reduceIte]
    rw [hloop]
  refine ⟨by rw [hpd], ?_, ?_, ?_⟩
  · rw [hpd]
    simp [hlen]
  · rw [hpd]
    intro hmem
    rcases List.mem_cons.mp hmem with h | h
    · simp at h
    · exact hnocomp h
  · rw [hpd]
    simp only [List.filterMap_cons, blockIdOf, hids]
    apply List.map_congr_left (f := fun x => x + 0) (g := id) ?_ |>.trans (List.map_id _)
    intro x _
    simp

/-- C2 witness: a 9000-byte bitstream (3 blocks); the response to block 1
(the third command) carries errorCode 5; exactly the ProgramDevice command
and blocks 0 and 1 are sent and the run raises the device error. -/
theorem C2_abort_on_error_witness :
    ((fun i => if i = 2 then some 5 else some 0 : Nat → Option Nat) 0 = some 0 ∧
     (fun i => if i = 2 then some 5 else some 0 : Nat → Option Nat) 2 = some 5 ∧
     (5 : Nat) ≠ 0 ∧
     1 < ((List.replicate 9000 1 : List Nat).length + (4096 - 32 - 1)) / (4096 - 32)) ∧
    (FabricTransport.programDevice (fun l => l)
        (fun i => if i = 2 then some 5 else some 0) (List.replicate 9000 1) false).2
      = .error (.deviceError 5) ∧
    (FabricTransport.programDevice (fun l => l)
        (fun i => if i = 2 then some 5 else some 0) (List.replicate 9000 1) false).1.length
      = 1 + 2 := by
  have h := C2_abort_on_error (fun l => l)
    (fun i => if i = 2 then some 5 else some 0) (List.replicate 9000 1) false 1 5
    rfl
    (by
      intro j hj
      have : j = 0 := by omega
      subst this
      rfl)
    rfl
    (by decide)
    (by rw [List.length_replicate]; norm_num)
  exact ⟨⟨rfl, rfl, by decide, by rw [List.length_replicate]; norm_num⟩, h.1, h.2.1⟩

/-- Outcome of one probe of a candidate uri by `FabricService.queryDevice`
(source lines 1446-1461): `found` when the transport opens and the device
answers a QueryDevice (carrying the fields of the resulting info), `noDevice`
when `createTransportForUri` returns `None` (the function then returns
`None`), and `raised` when transport creation or the query raises (port open
failure, read timeout `No response`, frame or parse errors). -/
inductive ProbeResult where
  | found (status : DeviceStatus) (fpgaDeviceId : Nat) (uid : String)
  | noDevice
  | raised
  deriving DecidableEq, Repr

/-- FabricService.queryDevice (source lines 1446-1461) against an oracle
`probe uri fast` describing what each port does. A successful query builds a
fresh `FabricDeviceInfo` (fresh `allocId = ctr`); the updated allocation
counter is returned alongside. -/
def FabricService.queryDevice (probe : String → Bool → ProbeResult)
    (uri : String) (fast : Bool) (ctr : Nat) :
    Except Unit (Option FabricDeviceInfo × Nat) :=
  match probe uri fast with
  | .noDevice => .ok (none, ctr)
  | .raised => .error ()
  | .found st fid uid => .ok (some ⟨st, fid, uri, uid, ctr⟩, ctr + 1)

/-- One probing pass of `FabricService.listDevices` over the candidate uris
(source lines 1403-1441). `filt` selects which uris this pass probes (the
preferred-pattern match for the fast-preferred pass, everything for the two
fallback passes); `caught` tells whether the per-candidate `try/except: pass`
is present (it is absent in the fast-preferred pass); `devices`/`ctr` thread
the result list and the allocation counter. A successful probe appends the
fresh info unless an identical object is already present
(`if not deviceInfo in devices`, which compares object identity); when
`returnOnMinCnt` is reached the pass requests an early return (`true`). -/
def probePass (probe : String → Bool → ProbeResult) (caught fast : Bool)
    (filt : String → Bool) (minCnt : Option Nat) :
    List String → List FabricDeviceInfo → Nat →
    Except Unit (Bool × List FabricDeviceInfo × Nat)
  | [], devices, ctr => .ok (false, devices, ctr)
  | uri :: rest, devices, ctr =>
    if filt uri then
      match FabricService.queryDevice probe uri fast ctr with
      | .error _ =>
        if caught then probePass probe caught fast filt minCnt rest devices ctr
        else .error ()
      | .ok (none, ctr2) => probePass probe caught fast filt minCnt rest devices ctr2
      | .ok (some di, ctr2) =>
        let devices2 := if devices.any (fun d => d.allocId = di.allocId) then devices
                        else devices ++ [di]
        match minCnt with
        | some m =>
          if m ≤ devices2.length then .ok (true, devices2, ctr2)
          else probePass probe caught fast filt minCnt rest devices2 ctr2
        | none => probePass probe caught fast filt minCnt rest devices2 ctr2
    else probePass probe caught fast filt minCnt rest devices ctr

/-- FabricService.listDevices (source lines 1382-1443), starting from the
already-built candidate uri list (the `comports` enumeration and the
`IGNORE_PORTS` filter are the external port-listing collaborator).
`hasPref` is `platform.system() in PREFERRED_PROBE_PORTS` and `isPref` the
`fnmatch` test against the preferred patterns. The fast-preferred pass runs
with no per-candidate exception handler; then the two fallback passes
(`for fastMode in [True, False]`) probe every candidate with the
per-candidate `try/except: pass`. The device cache only receives entries
(`addDeviceCache`) and never affects the returned list. -/
def FabricService.listDevices (probe : String → Bool → ProbeResult)
    (uris : List String) (isPref : String → Bool) (hasPref : Bool)
    (minCnt : Option Nat) : Except Unit (List FabricDeviceInfo) :=
  match (if hasPref then probePass probe false true isPref minCnt uris [] 0
         else .ok (false, [], 0)) with
  | .error e => .error e
  | .ok (early1, devs1, ctr1) =>
    if early1 then .ok devs1 else
    match probePass probe true true (fun _ => true) minCnt uris devs1 ctr1 with
    | .error e => .error e
    | .ok (early2, devs2, ctr2) =>
      if early2 then .ok devs2 else
      match probePass probe true false (fun _ => true) minCnt uris devs2 ctr2 with
      | .error e => .error e
      | .ok (_, devs3, _) => .ok devs3

/-- Auxiliary: a pass with the per-candidate `try/except: pass` in place
never propagates an exception. -/
theorem probePass_caught_ok (probe : String → Bool → ProbeResult) (fast : Bool)
    (filt : String → Bool) (minCnt : Option Nat) :
    ∀ uris devices ctr, ∃ t,
      probePass probe true fast filt minCnt uris devices ctr = .ok t := by
  intro uris
  induction uris with
  | nil =>
    intro devices ctr
    exact ⟨_, rfl⟩
  | cons uri rest ih =>
    intro devices ctr
    unfold probePass
    by_cases hf : filt uri
    · rw [if_pos hf]
      match hq : FabricService.queryDevice probe uri fast ctr with
      | .error _ => simpa using ih devices ctr
      | .ok (none, ctr2) => simpa using ih devices ctr2
      | .ok (some di, ctr2) =>
        match minCnt with
        | some m =>
          dsimp only
          by_cases hm : m ≤ (if devices.any (fun d => d.allocId = di.allocId)
              then devices else devices ++ [di]).length
          · rw [if_pos hm]
            exact ⟨_, rfl⟩
          · rw [if_neg hm]
            exact ih _ ctr2
        | none => exact ih _ ctr2
    · rw [if_neg hf]
      exact ih devices ctr

/-- Auxiliary: the uncaught fast-preferred pass succeeds provided no
selected candidate raises under the fast probe. -/
theorem probePass_uncaught_ok (probe : String → Bool → ProbeResult)
    (filt : String → Bool) (minCnt : Option Nat) :
    ∀ uris devices ctr,
      (∀ uri ∈ uris, filt uri = true → probe uri true ≠ .raised) →
      ∃ t, probePass probe false true filt minCnt uris devices ctr = .ok t := by
  intro uris
  induction uris with
  | nil =>
    intro devices ctr _
    exact ⟨_, rfl⟩
  | cons uri rest ih =>
    intro devices ctr hok
    unfold probePass
    by_cases hf : filt uri
    · rw [if_pos hf]
      have hnr : probe uri true ≠ .raised := hok uri (by simp) hf
      match hq : FabricService.queryDevice probe uri true ctr with
      | .error _ =>
        exfalso
        unfold FabricService.queryDevice at hq
        match hp : probe uri true with
        | .found st fid uid => rw [hp] at hq; cases hq
        | .noDevice => rw [hp] at hq; cases hq
        | .raised => exact hnr hp
      | .ok (none, ctr2) =>
        simpa using ih devices ctr2 (fun u hu hfu => hok u (by simp [hu]) hfu)
      | .ok (some di, ctr2) =>
        match minCnt with
        | some m =>
          dsimp only
          by_cases hm : m ≤ (if devices.any (fun d => d.allocId = di.allocId)
              then devices else devices ++ [di]).length
          · rw [if_pos hm]
            exact ⟨_, rfl⟩
          · rw [if_neg hm]
            exact ih _ ctr2 (fun u hu hfu => hok u (by simp [hu]) hfu)
        | none => exact ih _ ctr2 (fun u hu hfu => hok u (by simp [hu]) hfu)
    · rw [if_neg hf]
      exact ih devices ctr (fun u hu hfu => hok u (by simp [hu]) hfu)

/-- C7 (amended): in the two exhaustive fallback passes every candidate's
probe failure is caught and swallowed by the per-candidate `try/except` and
the scan continues - whenever no preferred-pass probe raises (in particular
whenever the platform has no preferred-port list), `listDevices` returns
normally no matter how the probes fail. The fast-preferred pass, however,
has no such handler (see the counterexample: a raising preferred candidate
aborts the scan). -/
theorem C7_fallback_failure_isolation (probe : String → Bool → ProbeResult)
    (uris : List String) (isPref : String → Bool) (hasPref : Bool)
    (minCnt : Option Nat)
    (h : ∀ uri ∈ uris, hasPref = true → isPref uri = true → probe uri true ≠ .raised) :
    ∃ l, FabricService.listDevices probe uris isPref hasPref minCnt = .ok l := by
  unfold FabricService.listDevices
  have h1 : ∃ t, (if hasPref then probePass probe false true isPref minCnt uris [] 0
      else .ok (false, [], 0)) = .ok t := by
    by_cases hp : hasPref
    · rw [if_pos hp]
      exact probePass_uncaught_ok probe isPref minCnt uris [] 0
        (fun u hu hf => h u hu hp hf)
    · rw [if_neg hp]
      exact ⟨_, rfl⟩
  obtain ⟨⟨early1, devs1, ctr1⟩, ht1⟩ := h1
  rw [ht1]
  dsimp only
  cases early1 with
  | true => exact ⟨devs1, rfl⟩
  | false =>
    obtain ⟨⟨early2, devs2, ctr2⟩, ht2⟩ :=
      probePass_caught_ok probe true (fun _ => true) minCnt uris devs1 ctr1
    rw [ht2]
    dsimp only
    cases early2 with
    | true => exact ⟨devs2, rfl⟩
    | false =>
      obtain ⟨⟨early3, devs3, ctr3⟩, ht3⟩ :=
        probePass_caught_ok probe false (fun _ => true) minCnt uris devs2 ctr2
      rw [ht3]
      exact ⟨devs3, rfl⟩

/-- C7 counterexample: with a preferred-matching candidate whose probe
raises (for example a read timeout), the fast-preferred pass has no
`try/except`, so `listDevices` itself raises - a failing candidate does
abort the scan in that pass, refuting the claim for "every probing pass". -/
theorem C7_counterexample :
    FabricService.listDevices (fun _ _ => ProbeResult.raised)
      ["usbserial:///dev/ttyACM0"] (fun _ => true) true none = .error () := rfl

/-- C7 witness: every probe raises, but with no preferred-port list the
whole scan still returns normally (with no devices found). -/
theorem C7_fallback_failure_isolation_witness :
    ∃ l, FabricService.listDevices (fun _ _ => ProbeResult.raised)
      ["usbserial:///dev/ttyACM0"] (fun _ => true) false none = .ok l :=
  C7_fallback_failure_isolation (fun _ _ => ProbeResult.raised)
    ["usbserial:///dev/ttyACM0"] (fun _ => true) false none
    (fun _ _ hfp _ => Bool.noConfusion hfp)

/-- C6: a single responsive device on a preferred-matching port, with no
`minimumCount` set, is returned three times (once per successful pass: the
fast-preferred pass and both fallback passes), every entry carrying the same
uri. The dedup check `if not deviceInfo in devices` compares object
identity, and each pass constructs a fresh `FabricDeviceInfo`, so the check
never fires and uri-level deduplication does not happen. -/
theorem C6_duplicate_uris :
    ∃ l, FabricService.listDevices
        (fun _ _ => ProbeResult.found DeviceStatus.StatusExistsAndValid 7 "ab")
        ["usbserial:///dev/ttyACM0"] (fun _ => true) true none = .ok l
      ∧ l.length = 3
      ∧ ∀ d ∈ l, d.uri = "usbserial:///dev/ttyACM0" := by
  refine ⟨[⟨DeviceStatus.StatusExistsAndValid, 7, "usbserial:///dev/ttyACM0", "ab", 0⟩,
           ⟨DeviceStatus.StatusExistsAndValid, 7, "usbserial:///dev/ttyACM0", "ab", 1⟩,
           ⟨DeviceStatus.StatusExistsAndValid, 7, "usbserial:///dev/ttyACM0", "ab", 2⟩],
    rfl, rfl, ?_⟩
  intro d hd
  simp only [List.mem_cons, List.not_mem_nil, or_false] at hd
  rcases hd with h | h | h <;> rw [h]
